import Mathlib

/-!
Shallow embedding of the lnotebook note store and command dispatcher
(crates `lnotebook` / `lnotebook_api`), together with proofs about the
behaviour of its operations.

The store is a single Postgres table `notebook(id, note_name UNIQUE, note)`.
Rust functions in `src/lnotebook_api/src/commands.rs` are modelled as pure
functions over an explicit `Notebook` state; the sqlx/Postgres layer is
modelled by the `*_returning` primitives (a statement either returns the
affected rows or a `SqlxError`, and a failed statement leaves the state
unchanged, as a single SQL statement is atomic).  The interactive note
capture loop of `src/lnotebook/src/commands/execute_commands.rs` is modelled
over byte-faithful strings (`List Char` plus UTF-8 byte arithmetic), with
`Option` capturing Rust panics and a fuel parameter capturing the unbounded
`loop`.
-/

namespace LNotebook

/-- Mirror of `struct Note` in `src/lnotebook_api/src/commands.rs`
(fields `id: i32`, `note: Option<String>`, `note_name: String`). -/
structure Note where
  id : Int
  note : Option String
  note_name : String
deriving DecidableEq

/-- A row of the `notebook` table (`id` integer, `note_name` unique text,
`note` nullable text). -/
structure Row where
  id : Int
  note_name : String
  note : Option String
deriving DecidableEq

/-- The persisted state: the rows of the `notebook` table plus the next value
of the `id` sequence. -/
structure Notebook where
  rows : List Row
  nextId : Int
deriving DecidableEq

/-- The sqlx errors reachable in this program: `sqlx::Error::RowNotFound`
(from `fetch_one` on a statement returning no row) and
`sqlx::Error::Database` carrying the backend error code
(Postgres uses `"23505"` for a unique-constraint violation). -/
inductive SqlxError where
  | RowNotFound : SqlxError
  | Database (code : String) : SqlxError
deriving DecidableEq

/-- Mirror of `enum NotebookError` in `src/lnotebook/src/errors.rs`:
`AlreadyTaken { notename }`, `DatabaseNotSpecifed`, `Sqlx(sqlx::Error)`,
`VarError`.  Note: there is no `NotFound` constructor in the source. -/
inductive NotebookError where
  | AlreadyTaken (notename : String)
  | DatabaseNotSpecifed
  | Sqlx (err : SqlxError)
  | VarError
deriving DecidableEq

instance {ε α : Type} [DecidableEq ε] [DecidableEq α] : DecidableEq (Except ε α) :=
  fun x y =>
    match x, y with
    | .ok a, .ok b =>
        if h : a = b then .isTrue (by rw [h]) else .isFalse (by simp [h])
    | .error a, .error b =>
        if h : a = b then .isTrue (by rw [h]) else .isFalse (by simp [h])
    | .ok _, .error _ => .isFalse (by simp)
    | .error _, .ok _ => .isFalse (by simp)

/-- Mirror of `err.as_database_error().and_then(|e| e.code())`:
only `Database` errors carry a code. -/
def SqlxError.db_code : SqlxError → Option String
  | .RowNotFound => none
  | .Database code => some code

/-- `true` exactly on the `Sqlx`-wrapped errors, i.e. on generic storage
errors (as opposed to the domain errors `AlreadyTaken` etc.). -/
def NotebookError.is_generic_storage : NotebookError → Bool
  | .Sqlx _ => true
  | _ => false

/-- Mirror of `Note::note_str`: the note content, or `""` when the column is
NULL. -/
def Note.note_str (n : Note) : String :=
  match n.note with
  | some s => s
  | none => ""

/-- `INSERT INTO notebook (note_name, note) VALUES ($1,$2) RETURNING ...`
followed by `fetch_one`: a duplicate `note_name` violates the unique
constraint (Postgres error code 23505); otherwise the row is appended with
the generated id. -/
def insert_returning (nb : Notebook) (name note : String) :
    Except SqlxError (Row × Notebook) :=
  if nb.rows.any (fun r => r.note_name == name) then
    .error (.Database "23505")
  else
    let r : Row := ⟨nb.nextId, name, some note⟩
    .ok (r, ⟨nb.rows ++ [r], nb.nextId + 1⟩)

/-- `DELETE FROM notebook WHERE note_name = $1 RETURNING ...` followed by
`fetch_one`: no matching row gives `RowNotFound`. -/
def delete_returning (nb : Notebook) (name : String) :
    Except SqlxError (Row × Notebook) :=
  match nb.rows.find? (fun r => r.note_name == name) with
  | none => .error .RowNotFound
  | some r =>
      .ok (r, ⟨nb.rows.filter (fun r2 => !(r2.note_name == name)), nb.nextId⟩)

/-- `DELETE FROM notebook RETURNING ...` followed by `fetch_all`: always
succeeds, removing and returning every row. -/
def delete_all_returning (nb : Notebook) :
    Except SqlxError (List Row × Notebook) :=
  .ok (nb.rows, ⟨[], nb.nextId⟩)

/-- `UPDATE notebook SET note = $1 WHERE note_name = $2 RETURNING ...`
followed by `fetch_one`: no matching row gives `RowNotFound`. -/
def update_returning (nb : Notebook) (newNote name : String) :
    Except SqlxError (Row × Notebook) :=
  match nb.rows.find? (fun r => r.note_name == name) with
  | none => .error .RowNotFound
  | some r =>
      .ok ({ r with note := some newNote },
           ⟨nb.rows.map (fun r2 =>
              if r2.note_name == name then { r2 with note := some newNote }
              else r2),
            nb.nextId⟩)

/-- `UPDATE notebook SET note_name = $1 WHERE note_name = $2 RETURNING ...`
followed by `fetch_one`: no matching row gives `RowNotFound`; renaming onto a
name held by a different row violates the unique constraint (code 23505) and,
the statement being atomic, changes nothing. -/
def update_name_returning (nb : Notebook) (newName name : String) :
    Except SqlxError (Row × Notebook) :=
  match nb.rows.find? (fun r => r.note_name == name) with
  | none => .error .RowNotFound
  | some r =>
      if !(newName == name) && nb.rows.any (fun r2 => r2.note_name == newName) then
        .error (.Database "23505")
      else
        .ok ({ r with note_name := newName },
             ⟨nb.rows.map (fun r2 =>
                if r2.note_name == name then { r2 with note_name := newName }
                else r2),
              nb.nextId⟩)

/-- Mirror of the error classification in `add`: a database error with code
`"23505"` becomes `AlreadyTaken`, every other error is passed through as
`Sqlx` (the `err.into()` fall-through). -/
def classify_insert_err (notename : String) (err : SqlxError) : NotebookError :=
  match err.db_code with
  | some code =>
      if code = "23505" then .AlreadyTaken notename
      else .Sqlx err
  | none => .Sqlx err

/-- Mirror of `add` in `src/lnotebook_api/src/commands.rs`: insert and return
the new `Note`; on error, classify via the 23505 check.  The second component
is the table state after the call. -/
def add (notename note : String) (nb : Notebook) :
    Except NotebookError Note × Notebook :=
  match insert_returning nb notename note with
  | .ok (row, nb') => (.ok ⟨row.id, row.note, row.note_name⟩, nb')
  | .error err => (.error (classify_insert_err notename err), nb)

/-- Mirror of `del`: delete the row, mapping any error to `Sqlx`. -/
def del (notename : String) (nb : Notebook) :
    Except NotebookError Unit × Notebook :=
  match delete_returning nb notename with
  | .ok (_, nb') => (.ok (), nb')
  | .error err => (.error (.Sqlx err), nb)

/-- Mirror of `del_all`: delete every row; the Rust function returns
`Result<(), NotebookError>`, i.e. `Ok(())` on success (it logs, but does not
return, the removed rows). -/
def del_all (nb : Notebook) : Except NotebookError Unit × Notebook :=
  match delete_all_returning nb with
  | .ok (_, nb') => (.ok (), nb')
  | .error err => (.error (.Sqlx err), nb)

/-- Mirror of `clear`: `UPDATE notebook SET note = '' WHERE note_name = $1`,
mapping any error to `Sqlx`. -/
def clear (notename : String) (nb : Notebook) :
    Except NotebookError Unit × Notebook :=
  match update_returning nb "" notename with
  | .ok (_, nb') => (.ok (), nb')
  | .error err => (.error (.Sqlx err), nb)

/-- Mirror of `upd`: update the note content and return the updated `Note`,
mapping any error to `Sqlx`. -/
def upd (notename new_note : String) (nb : Notebook) :
    Except NotebookError Note × Notebook :=
  match update_returning nb new_note notename with
  | .ok (row, nb') => (.ok ⟨row.id, row.note, row.note_name⟩, nb')
  | .error err => (.error (.Sqlx err), nb)

/-- Mirror of `upd_notename`: rename the note and return the updated `Note`,
mapping any error (including the unique-violation database error) to `Sqlx`. -/
def upd_notename (notename new_notename : String) (nb : Notebook) :
    Except NotebookError Note × Notebook :=
  match update_name_returning nb new_notename notename with
  | .ok (row, nb') => (.ok ⟨row.id, row.note, row.note_name⟩, nb')
  | .error err => (.error (.Sqlx err), nb)

/-- Mirror of `select_one`: fetch the row by name; the `?` operator wraps the
sqlx error (`RowNotFound` when absent) into `NotebookError::Sqlx`. -/
def select_one (notename : String) (nb : Notebook) : Except NotebookError Note :=
  match nb.rows.find? (fun r => r.note_name == notename) with
  | none => .error (.Sqlx .RowNotFound)
  | some r => .ok ⟨r.id, r.note, r.note_name⟩

/-- Mirror of `display`: `select_one` followed by logging. -/
def display (notename : String) (nb : Notebook) : Except NotebookError Unit :=
  match select_one notename nb with
  | .ok _ => .ok ()
  | .error e => .error e

/-! ### Interactive note capture

A Rust `String` is UTF-8; byte positions matter because `delete_end` slices
by byte index.  We model a string as its `List Char` of scalar values and
compute byte offsets with `Char.utf8Size`.  A byte-slicing operation returns
`none` exactly when the Rust counterpart would panic (offset out of range or
not on a character boundary). -/

/-- Total UTF-8 byte length of a string, i.e. Rust `str::len`. -/
def utf8Len (s : List Char) : Nat :=
  (s.map Char.utf8Size).sum

/-- Drop the first `n` bytes of a string; `none` when `n` overruns the string
or falls inside a character (where Rust slicing panics). -/
def dropBytes : List Char → Nat → Option (List Char)
  | s, 0 => some s
  | [], _ + 1 => none
  | c :: cs, n + 1 =>
      if c.utf8Size ≤ n + 1 then dropBytes cs (n + 1 - c.utf8Size)
      else none

/-- Take the first `n` bytes of a string; `none` when `n` overruns the string
or falls inside a character (where Rust slicing panics). -/
def takeBytes : List Char → Nat → Option (List Char)
  | _, 0 => some []
  | [], _ + 1 => none
  | c :: cs, n + 1 =>
      if c.utf8Size ≤ n + 1 then
        match takeBytes cs (n + 1 - c.utf8Size) with
        | none => none
        | some t => some (c :: t)
      else none

/-- Rust `&s[i..j]` for `i ≤ j`: `none` exactly when the slice would panic. -/
def sliceBytes (s : List Char) (i j : Nat) : Option (List Char) :=
  match dropBytes s i with
  | none => none
  | some t => takeBytes t (j - i)

/-- Rust `str::contains` with a string pattern: some position of `s` starts
an occurrence of `pat`. -/
def str_contains (s pat : List Char) : Bool :=
  (List.range (s.length + 1)).any (fun i => (s.drop i).take pat.length == pat)

/-- Worker for `delete_end`: iterates over the char indices of the snapshot
(`rest` paired with running byte offset `i`) while mutating `src`, exactly as
the Rust `char_indices().map(...)` does.  Returns `none` when the Rust code
would panic on a byte slice. -/
def delete_end_go (endm : List Char) : List Char → List Char → Nat → Option (List Char)
  | src, [], _ => some src
  | src, c :: rest, i =>
      if str_contains src endm then
        match sliceBytes src i (i + utf8Len endm) with
        | none => none
        | some t =>
            if t == endm then
              match takeBytes src i with
              | none => none
              | some src' => delete_end_go endm src' rest (i + c.utf8Size)
            else delete_end_go endm src rest (i + c.utf8Size)
      else delete_end_go endm src rest (i + c.utf8Size)

/-- Mirror of `delete_end` in `src/lnotebook/src/commands/execute_commands.rs`:
for each char index `i` of a snapshot of `source`, while `source` still
contains `end`, compare `&source[i..i + end.len()]` with `end` and on a match
`source.drain(i..)`.  `none` models a slicing panic. -/
def delete_end (source endm : List Char) : Option (List Char) :=
  delete_end_go endm source source 0

/-- The termination sentinel `#endnote#`. -/
def endnote : List Char := "#endnote#".data

/-- One result of `io::stdin().read_line`: a full line (with its trailing
newline, or possibly without one / empty at end of file), or an I/O error. -/
inductive ReadResult where
  | ok (line : List Char)
  | err
deriving DecidableEq

/-- Outcome of the capture loop: `exited 1` models `process::exit(1)` on a
read failure, `panicked` a slicing panic inside `delete_end`, `done` a normal
break with the accumulated note. -/
inductive CapResult where
  | exited (code : Nat)
  | panicked
  | done (note : List Char)
deriving DecidableEq

/-- Mirror of the `loop` in `NoteCommand::execute_command` (both the
`AddNote` and `UpdNote` arms): read line `k`; on `Err` exit the process with
status 1; if the line contains `#endnote#`, run `delete_end` on it, append
the truncated line and break; otherwise append the whole line and continue.
The first argument is fuel: `none` means the loop is still running after that
many iterations. -/
def note_capture_loop : Nat → Nat → (Nat → ReadResult) → List Char → Option CapResult
  | 0, _, _, _ => none
  | fuel + 1, k, ins, note =>
      match ins k with
      | .err => some (.exited 1)
      | .ok note_part =>
          if str_contains note_part endnote then
            match delete_end note_part endnote with
            | none => some .panicked
            | some t => some (.done (note ++ t))
          else note_capture_loop fuel (k + 1) ins (note ++ note_part)

/-- A line-oriented input source backed by a finite list of lines: past the
end of the list, `read_line` keeps succeeding having read zero bytes, so the
buffer stays empty (end-of-file behaviour of `io::stdin().read_line`). -/
def stdinOf (lines : List (List Char)) : Nat → ReadResult :=
  fun k => .ok (lines.getD k [])

/-- Observable outcome of dispatching one command: the process exited, a
panic occurred, the store operation was invoked (with its result and the
resulting table state), or an error was returned before the capture loop. -/
inductive ExecOutcome where
  | exited (code : Nat)
  | panicked
  | store_add (result : Except NotebookError Note) (nb : Notebook)
  | store_upd (result : Except NotebookError Note) (nb : Notebook)
  | returned_err (e : NotebookError)
deriving DecidableEq

/-- Mirror of the `AddNote` arm of `NoteCommand::execute_command`: run the
capture loop, then call `add` with the captured text.  `add` is reached only
through a `done` capture. -/
def execute_add_note (notename : String) (ins : Nat → ReadResult) (fuel : Nat)
    (nb : Notebook) : Option ExecOutcome :=
  match note_capture_loop fuel 0 ins [] with
  | none => none
  | some (.exited c) => some (.exited c)
  | some .panicked => some .panicked
  | some (.done note) =>
      let r := add notename (String.mk note) nb
      some (.store_add r.1 r.2)

/-- Mirror of the `UpdNote` arm of `NoteCommand::execute_command`: first
`select_one` (to print the current content; its error returns early via `?`),
then the capture loop, then `upd` with the captured text. -/
def execute_upd_note (notename : String) (ins : Nat → ReadResult) (fuel : Nat)
    (nb : Notebook) : Option ExecOutcome :=
  match select_one notename nb with
  | .error e => some (.returned_err e)
  | .ok _ =>
      match note_capture_loop fuel 0 ins [] with
      | none => none
      | some (.exited c) => some (.exited c)
      | some .panicked => some .panicked
      | some (.done note) =>
          let r := upd notename (String.mk note) nb
          some (.store_upd r.1 r.2)

/-- Concrete input stream used as a witness: one marker-free line, then a
read failure. -/
def insW : Nat → ReadResult :=
  fun k => if k = 0 then .ok "abc\n".data else .err

/-- Concrete two-row table used in counterexamples and witnesses. -/
def nbXY : Notebook :=
  ⟨[⟨1, "x", some "cx"⟩, ⟨2, "y", some "cy"⟩], 3⟩

/-- The empty table. -/
def nbEmpty : Notebook := ⟨[], 1⟩

/-! ### Helper lemmas -/

theorem names_find?_eq_none {nb : Notebook} {n : String}
    (h : ∀ r ∈ nb.rows, r.note_name ≠ n) :
    nb.rows.find? (fun r => r.note_name == n) = none :=
  List.find?_eq_none.mpr (fun r hr => by simpa using h r hr)

theorem names_any_eq_false {nb : Notebook} {n : String}
    (h : ∀ r ∈ nb.rows, r.note_name ≠ n) :
    nb.rows.any (fun r => r.note_name == n) = false := by
  rw [← Bool.not_eq_true, List.any_eq_true]
  rintro ⟨r, hr, hrn⟩
  exact h r hr (by simpa using hrn)

theorem find?_append_right {α : Type} (p : α → Bool) {l₁ : List α} (l₂ : List α)
    (h : l₁.find? p = none) : (l₁ ++ l₂).find? p = l₂.find? p := by
  rw [List.find?_append, h, Option.none_or]

/-- `add` on a fresh name inserts the row with the generated id and returns it. -/
theorem add_success (nb : Notebook) (n c : String)
    (h : ∀ r ∈ nb.rows, r.note_name ≠ n) :
    add n c nb =
      (.ok ⟨nb.nextId, some c, n⟩,
       ⟨nb.rows ++ [⟨nb.nextId, n, some c⟩], nb.nextId + 1⟩) := by
  simp [add, insert_returning, names_any_eq_false h]

/-- `add` on a taken name hits the unique constraint, which the 23505 check
turns into `AlreadyTaken`, and the table is untouched. -/
theorem add_duplicate (nb : Notebook) (n c : String)
    (h : ∃ r ∈ nb.rows, r.note_name = n) :
    add n c nb = (.error (.AlreadyTaken n), nb) := by
  obtain ⟨r, hr, hrn⟩ := h
  have hany : nb.rows.any (fun r2 => r2.note_name == n) = true :=
    List.any_eq_true.mpr ⟨r, hr, by simpa using hrn⟩
  simp [add, insert_returning, hany, classify_insert_err, SqlxError.db_code]

/-- A present name makes `select_one` succeed. -/
theorem select_one_ok (nb : Notebook) (n : String)
    (h : ∃ r ∈ nb.rows, r.note_name = n) :
    ∃ nt, select_one n nb = .ok nt := by
  obtain ⟨r, hr, hrn⟩ := h
  have hs : (nb.rows.find? (fun r2 => r2.note_name == n)).isSome = true :=
    List.find?_isSome.mpr ⟨r, hr, by simpa using hrn⟩
  obtain ⟨r0, hr0⟩ := Option.isSome_iff_exists.mp hs
  refine ⟨⟨r0.id, r0.note, r0.note_name⟩, ?_⟩
  simp [select_one, hr0]

theorem map_field_eq {β : Type} (f : Row → Row) (g : Row → β)
    (h : ∀ r, g (f r) = g r) (l : List Row) : (l.map f).map g = l.map g := by
  induction l with
  | nil => rfl
  | cons a t ih => simp [List.map_cons, h, ih]

/-! ### Claims -/

/-- C1 (counterexample): on the empty table, `del "x"` fails with the
generic storage error `Sqlx(RowNotFound)` — not with a domain
`NotFound("x")` error, which does not even exist in `NotebookError`. -/
theorem c1_counterexample :
    del "x" nbEmpty = (.error (.Sqlx .RowNotFound), nbEmpty) ∧
    display "x" nbEmpty = .error (.Sqlx .RowNotFound) ∧
    NotebookError.is_generic_storage (.Sqlx .RowNotFound) = true := by
  decide

/-- C1 (amended): for every store operation keyed by a note name (delete,
get/display, update, clear, rename), if no row matches the given name, the
operation fails with the generic storage error `Sqlx(RowNotFound)` (sqlx's
row-not-found surfaced unchanged) and leaves the table unchanged; no domain
`NotFound` error exists. -/
theorem c1_amended (nb : Notebook) (n c newName : String)
    (h : ∀ r ∈ nb.rows, r.note_name ≠ n) :
    del n nb = (.error (.Sqlx .RowNotFound), nb) ∧
    select_one n nb = .error (.Sqlx .RowNotFound) ∧
    display n nb = .error (.Sqlx .RowNotFound) ∧
    upd n c nb = (.error (.Sqlx .RowNotFound), nb) ∧
    upd_notename n newName nb = (.error (.Sqlx .RowNotFound), nb) ∧
    clear n nb = (.error (.Sqlx .RowNotFound), nb) := by
  have hf := names_find?_eq_none h
  refine ⟨?_, ?_, ?_, ?_, ?_, ?_⟩
  · simp [del, delete_returning, hf]
  · simp [select_one, hf]
  · simp [display, select_one, hf]
  · simp [upd, update_returning, hf]
  · simp [upd_notename, update_name_returning, hf]
  · simp [clear, update_returning, hf]

/-- C1 (witness): the amended claim at the empty table and name "x". -/
theorem c1_witness :
    del "x" nbEmpty = (.error (.Sqlx .RowNotFound), nbEmpty) ∧
    select_one "x" nbEmpty = .error (.Sqlx .RowNotFound) ∧
    display "x" nbEmpty = .error (.Sqlx .RowNotFound) ∧
    upd "x" "c" nbEmpty = (.error (.Sqlx .RowNotFound), nbEmpty) ∧
    upd_notename "x" "y" nbEmpty = (.error (.Sqlx .RowNotFound), nbEmpty) ∧
    clear "x" nbEmpty = (.error (.Sqlx .RowNotFound), nbEmpty) :=
  c1_amended nbEmpty "x" "c" "y" (by decide)

/-- C2 (counterexample): with rows "x" and "y" both present,
`upd_notename "x" "y"` fails with the generic `Sqlx(Database "23505")`
unique-violation error, not with `AlreadyTaken "y"` as the claim states. -/
theorem c2_counterexample :
    upd_notename "x" "y" nbXY = (.error (.Sqlx (.Database "23505")), nbXY) ∧
    (Except.error (.Sqlx (.Database "23505")) : Except NotebookError Note) ≠
      Except.error (.AlreadyTaken "y") := by
  decide

/-- C2 (amended): for distinct existing notes `x` and `y`,
`rename(x, y)` (`upd_notename`) fails with the unique-violation database
error surfaced generically as `Sqlx(Database "23505")` (not re-classified as
`NameAlreadyTaken`), and the table — in particular both the row named `x`
and the row named `y` — is unchanged. -/
theorem c2_amended (nb : Notebook) (x y : String) (hxy : x ≠ y)
    (hx : ∃ r ∈ nb.rows, r.note_name = x) (hy : ∃ r ∈ nb.rows, r.note_name = y) :
    upd_notename x y nb = (.error (.Sqlx (.Database "23505")), nb) := by
  obtain ⟨r, hr, hrx⟩ := hx
  obtain ⟨s, hs, hsy⟩ := hy
  have hfind : (nb.rows.find? (fun r2 => r2.note_name == x)).isSome = true :=
    List.find?_isSome.mpr ⟨r, hr, by simpa using hrx⟩
  obtain ⟨r0, hr0⟩ := Option.isSome_iff_exists.mp hfind
  have hany : nb.rows.any (fun r2 => r2.note_name == y) = true :=
    List.any_eq_true.mpr ⟨s, hs, by simpa using hsy⟩
  have hne : (y == x) = false := beq_eq_false_iff_ne.mpr (Ne.symm hxy)
  simp [upd_notename, update_name_returning, hr0, hany, hne]

/-- C2 (witness): the amended claim at the concrete two-row table. -/
theorem c2_witness :
    upd_notename "x" "y" nbXY = (.error (.Sqlx (.Database "23505")), nbXY) :=
  c2_amended nbXY "x" "y" (by decide) (by decide) (by decide)

/-- C3: creating a name that already exists fails with `AlreadyTaken(n)` and
leaves the table (hence the existing row) unmodified; on a fresh name the
returned `Note` carries the generated id `nb.nextId`; and the classification
recognizes the backend's uniqueness-violation code 23505 specifically — any
other insert error is passed through as a generic `Sqlx` error. -/
theorem c3_uniqueness (nb : Notebook) (n c : String) :
    ((∃ r ∈ nb.rows, r.note_name = n) →
      add n c nb = (.error (.AlreadyTaken n), nb)) ∧
    ((∀ r ∈ nb.rows, r.note_name ≠ n) →
      add n c nb =
        (.ok ⟨nb.nextId, some c, n⟩,
         ⟨nb.rows ++ [⟨nb.nextId, n, some c⟩], nb.nextId + 1⟩)) ∧
    classify_insert_err n (.Database "23505") = .AlreadyTaken n ∧
    (∀ e : SqlxError, e ≠ .Database "23505" → classify_insert_err n e = .Sqlx e) := by
  refine ⟨add_duplicate nb n c, add_success nb n c, rfl, ?_⟩
  intro e he
  cases e with
  | RowNotFound => rfl
  | Database code =>
      have hc : ¬ code = "23505" := fun hcc => he (by rw [hcc])
      simp [classify_insert_err, SqlxError.db_code, hc]

/-- C3 (witness): duplicate insert of "x" into the two-row table fails with
`AlreadyTaken`, a fresh insert of "z" succeeds with generated id 3, and a
non-23505 backend error is not classified as `AlreadyTaken`. -/
theorem c3_witness :
    add "x" "c" nbXY = (.error (.AlreadyTaken "x"), nbXY) ∧
    add "z" "c" nbXY =
      (.ok ⟨3, some "c", "z"⟩, ⟨nbXY.rows ++ [⟨3, "z", some "c"⟩], 4⟩) ∧
    classify_insert_err "x" (.Database "42P01") = .Sqlx (.Database "42P01") :=
  ⟨(c3_uniqueness nbXY "x" "c").1 (by decide),
   (c3_uniqueness nbXY "z" "c").2.1 (by decide),
   (c3_uniqueness nbXY "x" "c").2.2.2 (.Database "42P01") (by decide)⟩

/-- C5 (counterexample): `del_all` returns `Ok(())` whatever it removed: its
success value on the two-row table equals its success value on the empty
table even though the removed counts differ (2 versus 0), so it does not
return the number of rows removed. -/
theorem c5_counterexample :
    (del_all nbXY).1 = (del_all nbEmpty).1 ∧
    nbXY.rows.length = 2 ∧ nbEmpty.rows.length = 0 ∧
    (del_all nbXY).2.rows = [] := by
  decide

/-- C5 (amended): `del_all` removes every row and succeeds with `Ok(())`
(unit, not a count — the removed rows are only logged); removing zero rows is
a valid success outcome, not an error. -/
theorem c5_amended (nb : Notebook) :
    del_all nb = (.ok (), ⟨[], nb.nextId⟩) := rfl

/-- C6: creating a fresh note `n` with content `c` and then fetching `n`
returns a note whose `note_name` is `n` and whose content is `c`. -/
theorem c6_round_trip (nb : Notebook) (n c : String)
    (h : ∀ r ∈ nb.rows, r.note_name ≠ n) :
    ∃ nt : Note, select_one n (add n c nb).2 = .ok nt ∧
      nt.note_name = n ∧ nt.note = some c ∧ nt.note_str = c := by
  rw [add_success nb n c h]
  refine ⟨⟨nb.nextId, some c, n⟩, ?_, rfl, rfl, rfl⟩
  have hf := names_find?_eq_none h
  simp only [select_one]
  rw [find?_append_right _ _ hf]
  simp [List.find?_cons_of_pos]

/-- C6 (witness): the round trip at the two-row table with fresh name "z". -/
theorem c6_witness :
    ∃ nt : Note, select_one "z" (add "z" "c" nbXY).2 = .ok nt ∧
      nt.note_name = "z" ∧ nt.note = some "c" ∧ nt.note_str = "c" :=
  c6_round_trip nbXY "z" "c" (by decide)

/-- C7: no store operation changes a row's id — whether they succeed or
fail, `upd` preserves every row's `id` and `note_name` (it touches only
`note`), `upd_notename` preserves every row's `id` and `note` (it touches
only `note_name`), and `clear` preserves every row's `id` and `note_name`
(it touches only `note`). -/
theorem c7_id_immutable (nb : Notebook) (n newName c : String) :
    ((upd n c nb).2.rows.map Row.id = nb.rows.map Row.id ∧
     (upd n c nb).2.rows.map Row.note_name = nb.rows.map Row.note_name) ∧
    ((upd_notename n newName nb).2.rows.map Row.id = nb.rows.map Row.id ∧
     (upd_notename n newName nb).2.rows.map Row.note = nb.rows.map Row.note) ∧
    ((clear n nb).2.rows.map Row.id = nb.rows.map Row.id ∧
     (clear n nb).2.rows.map Row.note_name = nb.rows.map Row.note_name) := by
  refine ⟨⟨?_, ?_⟩, ⟨?_, ?_⟩, ⟨?_, ?_⟩⟩ <;>
    cases hf : nb.rows.find? (fun r => r.note_name == n) with
  | none => simp [upd, upd_notename, clear, update_returning, update_name_returning, hf]
  | some r =>
      first
      | (simp only [upd, clear, update_returning, hf]
         exact map_field_eq _ _ (fun r2 => by by_cases h2 : (r2.note_name == n) = true <;>
           simp [h2]) nb.rows)
      | (simp only [upd_notename, update_name_returning, hf]
         by_cases hg : (!(newName == n) &&
             nb.rows.any (fun r2 => r2.note_name == newName)) = true
         · simp [hg]
         · simp only [Bool.not_eq_true] at hg
           simp only [hg, Bool.false_eq_true, if_neg, ite_false]
           exact map_field_eq _ _ (fun r2 => by by_cases h2 : (r2.note_name == n) = true <;>
             simp [h2]) nb.rows)

/-- C4: the sentinel contract on the capture loop, evaluated on concrete
inputs.  Capturing `"hello\n"` then `"world#endnote#ignored\n"` yields
exactly `"hello\nworld"` (the marker and the trailing text are discarded).
But on the final line `"abcdefg€#endnote#\n"` — where the claimed contract
says the captured note is `"abcdefg€"` — the code panics: `delete_end`
slices at byte offset 9, which is inside the multi-byte `'€'`. -/
theorem c4_sentinel_eval :
    note_capture_loop 2 0
        (stdinOf ["hello\n".data, "world#endnote#ignored\n".data]) []
      = some (.done "hello\nworld".data) ∧
    note_capture_loop 1 0 (stdinOf ["abcdefg€#endnote#\n".data]) []
      = some .panicked ∧
    some CapResult.panicked ≠ some (.done "abcdefg€".data) := by
  decide

/-- C9: `delete_end` is not total: on the well-formed line
`"abcdefg€#endnote#"` (multi-byte character before the marker), the very
first scan step slices `source[0..9]`, and byte offset 9 is not a character
boundary (it falls inside `'€'`), so the function panics (`none`) instead of
returning the truncated note. -/
theorem c9_multibyte_panic :
    str_contains "abcdefg€#endnote#".data endnote = true ∧
    sliceBytes "abcdefg€#endnote#".data 0 (0 + utf8Len endnote) = none ∧
    delete_end "abcdefg€#endnote#".data endnote = none := by
  decide

/-- The capture loop reaches a failing read after `d` more marker-free lines
and exits the process with status 1. -/
theorem capture_reaches_err (ins : Nat → ReadResult) (j : Nat)
    (hj : ins j = .err)
    (hbefore : ∀ i, i < j →
      ∃ line, ins i = .ok line ∧ str_contains line endnote = false) :
    ∀ d f k note, k + d = j →
      note_capture_loop (d + f + 1) k ins note = some (.exited 1) := by
  intro d
  induction d with
  | zero =>
      intro f k note hk
      have hk0 : k = j := by omega
      subst hk0
      simp [note_capture_loop, hj]
  | succ d ih =>
      intro f k note hk
      obtain ⟨line, hok, hnm⟩ := hbefore k (by omega)
      have h1 : d + 1 + f + 1 = (d + f + 1) + 1 := by omega
      rw [h1]
      simp only [note_capture_loop, hok, hnm, Bool.false_eq_true, if_false]
      exact ih (f) (k + 1) (note ++ line) (by omega)

/-- C8: if reading line `j` fails during interactive capture (all earlier
lines being marker-free), the `AddNote` dispatch exits the process with
status 1 — `add` is never invoked (the outcome is `exited`, not
`store_add`) — and likewise the `UpdNote` dispatch (once its initial
`select_one` succeeds) exits with status 1 without invoking `upd`. -/
theorem c8_read_failure_fatal (notename : String) (ins : Nat → ReadResult)
    (nb : Notebook) (j f : Nat)
    (hj : ins j = .err)
    (hbefore : ∀ i, i < j →
      ∃ line, ins i = .ok line ∧ str_contains line endnote = false) :
    execute_add_note notename ins (j + f + 1) nb = some (.exited 1) ∧
    ((∃ r ∈ nb.rows, r.note_name = notename) →
      execute_upd_note notename ins (j + f + 1) nb = some (.exited 1)) := by
  have hcap := capture_reaches_err ins j hj hbefore j f 0 [] (by omega)
  constructor
  · simp [execute_add_note, hcap]
  · intro hex
    obtain ⟨nt, hnt⟩ := select_one_ok nb notename hex
    simp [execute_upd_note, hnt, hcap]

/-- C8 (witness): with one marker-free line and then a read error, both
dispatch arms exit with status 1 on the two-row table. -/
theorem c8_witness :
    execute_add_note "x" insW 2 nbXY = some (.exited 1) ∧
    execute_upd_note "x" insW 2 nbXY = some (.exited 1) := by
  have h := c8_read_failure_fatal "x" insW nbXY 1 0 rfl
    (by
      intro i hi
      have hi0 : i = 0 := by omega
      subst hi0
      exact ⟨"abc\n".data, rfl, by decide⟩)
  exact ⟨h.1, h.2 (by decide)⟩

/-- A stream of marker-free successful reads keeps the capture loop running
for ever: no amount of fuel produces a result. -/
theorem capture_no_marker_diverges (ins : Nat → ReadResult)
    (h : ∀ k, ∃ line, ins k = .ok line ∧ str_contains line endnote = false) :
    ∀ fuel k note, note_capture_loop fuel k ins note = none := by
  intro fuel
  induction fuel with
  | zero => intro k note; rfl
  | succ f ih =>
      intro k note
      obtain ⟨line, hok, hnm⟩ := h k
      simp [note_capture_loop, hok, hnm, ih]

theorem getD_of_drop {α : Type} (d : α) :
    ∀ (L : List α) (k : Nat) (x : α) (rest : List α),
      L.drop k = x :: rest → L.getD k d = x := by
  intro L
  induction L with
  | nil => intro k x rest h; simp [List.drop_nil] at h
  | cons a t ih =>
      intro k x rest h
      cases k with
      | zero =>
          rw [List.drop_zero] at h
          rw [List.getD_cons_zero]
          injection h with h1 _
      | succ k =>
          rw [List.getD_cons_succ]
          exact ih k x rest (by simpa using h)

/-- If some line of the remaining input contains the marker, the capture
loop halts (by `done` or by a `delete_end` panic) with enough fuel. -/
theorem capture_marker_halts (lines : List (List Char)) :
    ∀ rest k note, lines.drop k = rest →
      (∃ line ∈ rest, str_contains line endnote = true) →
      ∃ fuel, (note_capture_loop fuel k (stdinOf lines) note).isSome = true := by
  intro rest
  induction rest with
  | nil =>
      rintro k note _ ⟨line, hmem, _⟩
      cases hmem
  | cons l rest ih =>
      intro k note hdrop hex
      have hk : lines.getD k [] = l := getD_of_drop [] lines k l rest hdrop
      by_cases hm : str_contains l endnote = true
      · refine ⟨1, ?_⟩
        simp only [note_capture_loop, stdinOf, hk, hm, if_true]
        cases hde : delete_end l endnote <;> simp [hde]
      · have hdrop' : lines.drop (k + 1) = rest := by
          rw [← List.tail_drop, hdrop]
          rfl
        obtain ⟨line, hmem, hml⟩ := hex
        have hlr : line ∈ rest := by
          rcases List.mem_cons.mp hmem with h1 | h1
          · exact absurd (h1 ▸ hml) hm
          · exact h1
        obtain ⟨fuel, hf⟩ := ih (k + 1) (note ++ l) hdrop' ⟨line, hlr, hml⟩
        refine ⟨fuel + 1, ?_⟩
        have hm' : str_contains l endnote = false := by
          simpa using hm
        simp only [note_capture_loop, stdinOf, hk, hm', Bool.false_eq_true, if_false]
        exact hf

/-- C10: over a finite input (after which every read succeeds having read
zero bytes, i.e. yields the empty line), the capture loop terminates if and
only if some line of the input contains the `#endnote#` marker; in
particular it spins for ever at end-of-file. -/
theorem c10_termination_iff (lines : List (List Char)) :
    (∃ fuel, (note_capture_loop fuel 0 (stdinOf lines) []).isSome = true) ↔
    ∃ line ∈ lines, str_contains line endnote = true := by
  constructor
  · rintro ⟨fuel, hf⟩
    by_contra hno
    push_neg at hno
    have hall : ∀ k, ∃ line, stdinOf lines k = .ok line ∧
        str_contains line endnote = false := by
      intro k
      refine ⟨lines.getD k [], rfl, ?_⟩
      by_cases hk : k < lines.length
      · have hmem : lines.getD k [] ∈ lines := by
          rw [List.getD_eq_getElem?_getD, List.getElem?_eq_getElem hk]
          exact List.getElem_mem hk
        simpa using hno _ hmem
      · rw [List.getD_eq_default _ _ (by omega)]
        decide
    rw [capture_no_marker_diverges (stdinOf lines) hall fuel 0 []] at hf
    simp at hf
  · intro hex
    exact capture_marker_halts lines lines 0 [] (by simp) hex

/-- C10 (witness): a concrete input whose second line carries the marker,
recovered from a terminating run via the iff. -/
theorem c10_witness :
    ∃ line ∈ ["a\n".data, "b#endnote#\n".data],
      str_contains line endnote = true :=
  (c10_termination_iff ["a\n".data, "b#endnote#\n".data]).mp ⟨2, by decide⟩

end LNotebook
